import Mathlib

/-!
Shallow embedding of the quiz-result analysis scripts
(`analyze_results_with_perplexity.py` and `search_trends_gb.py`).

Python strings are modelled as Lean `String`; Python `None`-able values as
`Option`; JSON scalar values appearing in perception entries as `PyVal`;
machine floats as `ℚ` (the claims under scrutiny concern exact arithmetic
identities, not rounding); raised exceptions as `Except` errors.  Ambient
process state (environment variables, the wall clock) that the Python code
could in principle consult is passed explicitly as a `World` argument, so
that independence from it is expressible.
-/

/-- Model of Python `str.strip()` on a character list: drop whitespace from
both ends. -/
def pyStripList (cs : List Char) : List Char :=
  ((cs.dropWhile Char.isWhitespace).reverse.dropWhile Char.isWhitespace).reverse

/-- Model of Python `str.strip()`. -/
def pyStrip (s : String) : String :=
  ⟨pyStripList s.data⟩

/-- Model of Python `str.lstrip()`: drop whitespace from the left end. -/
def pyLStrip (s : String) : String :=
  ⟨s.data.dropWhile Char.isWhitespace⟩

/-- Model of Python `str.strip(c)` for a single character `c`: drop every
leading and trailing occurrence of `c`. -/
def pyStripChar (c : Char) (s : String) : String :=
  ⟨((s.data.dropWhile (fun d => d = c)).reverse.dropWhile (fun d => d = c)).reverse⟩

/-- Model of Python `s[n:]`. -/
def pyDrop (n : Nat) (s : String) : String :=
  ⟨s.data.drop n⟩

/-- Model of Python `str.lower()`. -/
def pyLower (s : String) : String :=
  ⟨s.data.map Char.toLower⟩

/-- Boolean prefix test on character lists, modelling Python `str.startswith`. -/
def listStartsWith : List Char → List Char → Bool
  | _, [] => true
  | [], _ :: _ => false
  | c :: cs, p :: ps => (c = p) && listStartsWith cs ps

/-- Model of Python `a or b` on strings: the empty string is falsy. -/
def pyOrS (a b : String) : String :=
  if a = "" then b else a

/-- Model of Python `a or b or ""` where `a b` are `None`-able strings:
first truthy operand, else the empty string. -/
def pyOr2 (a b : Option String) : String :=
  let x := a.getD ("")
  if x ≠ "" then x else b.getD ("")

/-- Model of Python `(x or None)` on a `None`-able string: an empty string
collapses to `None`. -/
def pyOrNone (a : Option String) : Option String :=
  match a with
  | some s => if s = "" then none else some s
  | none => none

/-- Scalar JSON value as it appears in a parsed perception entry:
`null`/missing, a number, or a string. -/
inductive PyVal where
  | none
  | num (q : ℚ)
  | str (s : String)
  deriving DecidableEq, Repr

/-- Split a character list at the first dot, if any (helper for the model of
Python `float(str)`). -/
def splitDot : List Char → (List Char × Option (List Char))
  | [] => ([], Option.none)
  | c :: r =>
    if c = '.' then ([], some r)
    else
      let p := splitDot r
      (c :: p.1, p.2)

/-- Numeric value of a digit list, most significant first. -/
def digitsVal (cs : List Char) : ℕ :=
  cs.foldl (fun a c => a * 10 + (c.toNat - 48)) 0

/-- Model of Python `float(s)` on a string: optional sign, decimal digits
with an optional single dot, at least one digit overall.  (Exponent and
`inf`/`nan` forms, which never arise in the claims, are outside the modelled
subset and map to a parse failure.) -/
def pyFloatString (s : String) : Option ℚ :=
  let cs := (pyStrip s).data
  let sp : ℚ × List Char :=
    match cs with
    | '-' :: r => (-1, r)
    | '+' :: r => (1, r)
    | r => (1, r)
  let p := splitDot sp.2
  match p.2 with
  | Option.none =>
    if p.1 ≠ [] ∧ p.1.all Char.isDigit then
      some (sp.1 * (digitsVal p.1 : ℚ))
    else Option.none
  | some frac =>
    if (p.1 ≠ [] ∨ frac ≠ []) ∧ p.1.all Char.isDigit ∧ frac.all Char.isDigit then
      some (sp.1 * ((digitsVal p.1 : ℚ) + (digitsVal frac : ℚ) / (10 : ℚ) ^ frac.length))
    else Option.none

/-- Model of Python `float(v)` on a scalar JSON value: numbers convert to
themselves, strings go through string parsing, `None` raises (the failing
conversion is modelled as `Option.none`). -/
def pyFloat : PyVal → Option ℚ
  | PyVal.none => Option.none
  | PyVal.num q => some q
  | PyVal.str s => pyFloatString s

/-- An attribution entry of a quiz question: optional display name,
required URL (`Source` dataclass). -/
structure Source where
  name : Option String
  url : String
  deriving DecidableEq, Repr

/-- Static metadata of one quiz question (`QuestionMeta` dataclass). -/
structure QuestionMeta where
  id : String
  question : String
  category : Option String
  sources : List Source
  deriving DecidableEq, Repr

/-- One parsed perception entry of a result row. -/
structure Perception where
  questionId : Option String
  userGuessValue : PyVal
  actualValue : PyVal
  timeToGuess : Option ℚ
  questionText : Option String
  deriving DecidableEq, Repr

/-- One normalized result row as produced by `load_results`. -/
structure ResultRecord where
  result_id : String
  session_id : String
  quiz_link_id : String
  pki_score : Option String
  created_at : String
  perceptions : List Perception
  deriving DecidableEq, Repr

/-- First-match lookup in an association list, modelling Python dict
indexing (our insertions keep keys unique). -/
def dlookup {α : Type} : List (String × α) → String → Option α
  | [], _ => Option.none
  | p :: rest, key => if p.1 = key then some p.2 else dlookup rest key

/-- Model of Python dict assignment `d[k] = v`: an existing key keeps its
position and gets the new value; a new key is appended (insertion order). -/
def dictInsert {α : Type} (d : List (String × α)) (k : String) (v : α) : List (String × α) :=
  if d.any (fun p => p.1 = k) then
    d.map (fun p => if p.1 = k then (k, v) else p)
  else d ++ [(k, v)]

/-- A name/url pair as emitted into `sources` and `candidate_sources`. -/
structure SourceOut where
  name : String
  url : String
  deriving DecidableEq, Repr

/-- One per-question comparison item of an analysis context. -/
structure Item where
  question_id : String
  question : String
  category : Option String
  user_guess : PyVal
  actual_value : PyVal
  abs_error : Option ℚ
  sources : List SourceOut
  deriving DecidableEq, Repr

/-- The aggregate statistics block of an analysis context. -/
structure Summary where
  num_questions : ℕ
  mean_abs_error : Option ℚ
  num_with_sources : ℕ
  deriving DecidableEq, Repr

/-- The full analysis context built for one result. -/
structure Context where
  result_id : String
  session_id : String
  quiz_link_id : String
  created_at : String
  summary : Summary
  items : List Item
  candidate_sources : List SourceOut
  deriving DecidableEq, Repr

/-- Ambient process state available to the Python process: environment
variables and a wall clock.  Functions that never consult it are
manifestly independent of it. -/
structure World where
  env : List (String × String)
  clock : ℕ
  deriving DecidableEq, Repr

/-- Quiz-question mapping for one quiz: question id to metadata. -/
abbrev QMap := List (String × QuestionMeta)

/-- Loop body of `build_context_for_result`: process one perception entry,
extending the item list and the URL-keyed source dictionary. -/
def processEntry (qm : QMap) (acc : List Item × List (String × Source)) (e : Perception) :
    List Item × List (String × Source) :=
  let qid := pyStrip (e.questionId.getD (""))
  let meta := dlookup qm qid
  let question_text :=
    pyStrip (pyOrS (e.questionText.getD (""))
      (match meta with
       | some m => m.question
       | Option.none => ""))
  let user_val := e.userGuessValue
  let actual_val := e.actualValue
  let category : Option String :=
    match meta with
    | some m => m.category
    | Option.none => Option.none
  let err : Option ℚ :=
    if user_val ≠ PyVal.none ∧ actual_val ≠ PyVal.none then
      match pyFloat user_val, pyFloat actual_val with
      | some x, some y => some |x - y|
      | _, _ => Option.none
    else Option.none
  let sd : List SourceOut × List (String × Source) :=
    match meta with
    | some m =>
      if m.sources ≠ [] then
        m.sources.foldl
          (fun (p : List SourceOut × List (String × Source)) s =>
            (p.1 ++ [⟨pyOrS (s.name.getD ("")) s.url, s.url⟩], dictInsert p.2 s.url s))
          ([], acc.2)
      else ([], acc.2)
    | Option.none => ([], acc.2)
  (acc.1 ++ [⟨qid, question_text, category, user_val, actual_val, err, sd.1⟩], sd.2)

/-- Model of `build_context_for_result`: per-question items, aggregate
summary, and the de-duplicated candidate source list. -/
def build_context_for_result (w : World) (result : ResultRecord) (quiz_meta : QMap) : Context :=
  let st := result.perceptions.foldl (processEntry quiz_meta) ([], [])
  let items := st.1
  let all_sources := st.2
  let errors := items.filterMap Item.abs_error
  let summary : Summary :=
    ⟨items.length,
     if errors ≠ [] then some (errors.sum / (errors.length : ℚ)) else Option.none,
     (items.filter (fun i => i.sources ≠ [])).length⟩
  { result_id := result.result_id
    session_id := result.session_id
    quiz_link_id := result.quiz_link_id
    created_at := result.created_at
    summary := summary
    items := items
    candidate_sources :=
      all_sources.map (fun p => ⟨pyOrS (p.2.name.getD ("")) p.2.url, p.2.url⟩) }

/-- JSON value, as built by the Python dict/list literals that are passed to
`json.dumps`. -/
inductive Json where
  | null
  | bool (b : Bool)
  | num (q : ℚ)
  | str (s : String)
  | arr (xs : List Json)
  | obj (kvs : List (String × Json))

/-- JSON rendering of a scalar perception value. -/
def PyVal.toJson : PyVal → Json
  | PyVal.none => Json.null
  | PyVal.num q => Json.num q
  | PyVal.str s => Json.str s

/-- JSON rendering of a `None`-able number. -/
def optNumJson : Option ℚ → Json
  | some q => Json.num q
  | Option.none => Json.null

/-- JSON rendering of a `None`-able string. -/
def optStrJson : Option String → Json
  | some s => Json.str s
  | Option.none => Json.null

/-- Model of Python `json.dumps` string escaping restricted to the two
mandatory escapes; other characters pass through (`ensure_ascii=False`). -/
def jsonEscape (s : String) : String :=
  ⟨s.data.foldr (fun c acc =>
    if c = '"' then '\\' :: '"' :: acc
    else if c = '\\' then '\\' :: '\\' :: acc
    else c :: acc) []⟩

/-- Quoted JSON string literal. -/
def strRepr (s : String) : String :=
  "\"" ++ jsonEscape s ++ "\""

mutual

/-- Model of Python `json.dumps` with default separators, parameterized by
the stdlib's numeric repr (`nr`), which is external to this repository. -/
def Json.dumps (nr : ℚ → String) : Json → String
  | Json.null => "null"
  | Json.bool true => "true"
  | Json.bool false => "false"
  | Json.num q => nr q
  | Json.str s => strRepr s
  | Json.arr xs => "[" ++ dumpsElems nr xs ++ "]"
  | Json.obj kvs => "\x7b" ++ dumpsFields nr kvs ++ "\x7d"

/-- Comma-separated rendering of array elements. -/
def dumpsElems (nr : ℚ → String) : List Json → String
  | [] => ""
  | [x] => Json.dumps nr x
  | x :: y :: xs => Json.dumps nr x ++ ", " ++ dumpsElems nr (y :: xs)

/-- Comma-separated rendering of object fields. -/
def dumpsFields (nr : ℚ → String) : List (String × Json) → String
  | [] => ""
  | [p] => strRepr p.1 ++ ": " ++ Json.dumps nr p.2
  | p :: q :: xs => strRepr p.1 ++ ": " ++ Json.dumps nr p.2 ++ ", " ++ dumpsFields nr (q :: xs)

end

/-- Top-level key list of a JSON object. -/
def jsonTopKeys : Json → List String
  | Json.obj kvs => kvs.map Prod.fst
  | _ => []

/-- JSON rendering of one context item, field order as in the source dict
literal. -/
def itemJson (i : Item) : Json :=
  Json.obj
    [("question_id", Json.str i.question_id),
     ("question", Json.str i.question),
     ("category", optStrJson i.category),
     ("user_guess", i.user_guess.toJson),
     ("actual_value", i.actual_value.toJson),
     ("abs_error", optNumJson i.abs_error),
     ("sources", Json.arr (i.sources.map (fun s =>
        Json.obj [("name", Json.str s.name), ("url", Json.str s.url)])))]

/-- JSON rendering of a whole analysis context, field order as in the source. -/
def contextJson (c : Context) : Json :=
  Json.obj
    [("result_id", Json.str c.result_id),
     ("session_id", Json.str c.session_id),
     ("quiz_link_id", Json.str c.quiz_link_id),
     ("created_at", Json.str c.created_at),
     ("summary", Json.obj
        [("num_questions", Json.num (c.summary.num_questions : ℚ)),
         ("mean_abs_error", optNumJson c.summary.mean_abs_error),
         ("num_with_sources", Json.num (c.summary.num_with_sources : ℚ))]),
     ("items", Json.arr (c.items.map itemJson)),
     ("candidate_sources", Json.arr (c.candidate_sources.map (fun s =>
        Json.obj [("name", Json.str s.name), ("url", Json.str s.url)])))]

/-- The fixed system instruction of `build_prompt_messages`. -/
def sys_prompt : String :=
  "You are an educational explainer and fact-grounded analyst. " ++
  "Given a user's quiz results that compare their guesses against actual values, " ++
  "identify key misconceptions, quantify where possible, and offer concise, actionable guidance to learn. " ++
  "Cite sources with direct URLs. Prefer the provided candidate sources when relevant. " ++
  "Be neutral, clear, and avoid fluff."

/-- The structured user payload of `build_prompt_messages`, before
serialization. -/
def user_payload (context : Context) : Json :=
  Json.obj
    [("task", Json.str ("Analyze quiz performance and provide educational guidance with citations.")),
     ("result_context", contextJson context),
     ("requirements", Json.arr
        [Json.str ("Summarize overall performance and common patterns of error/bias."),
         Json.str ("For each theme/misconception, explain briefly and suggest how to recalibrate."),
         Json.str ("Include 4-8 relevant sources with URLs; prefer candidate_sources when suitable."),
         Json.str ("Return a short bullet list of next steps for learning.")]),
     ("format", Json.obj
        [("style", Json.str ("markdown")),
         ("sections", Json.arr
            [Json.str ("Overview"),
             Json.str ("Key Misconceptions"),
             Json.str ("Recommended Sources"),
             Json.str ("Next Steps")])])]

/-- A chat message: role plus textual content. -/
structure Message where
  role : String
  content : String
  deriving DecidableEq, Repr

/-- Model of `build_prompt_messages`: the fixed system message followed by
the serialized user payload. -/
def build_prompt_messages (nr : ℚ → String) (w : World) (context : Context) : List Message :=
  [⟨"system", sys_prompt⟩,
   ⟨"user", Json.dumps nr (user_payload context)⟩]

/-- Model of Python `json.JSONDecodeError`: message, the document being
parsed, and the failure position — note it carries no reference to any CSV
row or field. -/
structure DecodeError where
  msg : String
  doc : String
  pos : ℕ
  deriving DecidableEq, Repr

/-- One raw source object inside a Questions JSON cell. -/
structure SourceRaw where
  url : Option String
  name : Option String
  deriving DecidableEq, Repr

/-- One raw question object inside a Questions JSON cell. -/
structure QItemRaw where
  id : Option String
  questionId : Option String
  question : Option String
  questionText : Option String
  category : Option String
  sources : Option (List SourceRaw)
  deriving DecidableEq, Repr

/-- One CSV row of quizzes.csv (the columns the loader reads). -/
structure QuizRow where
  quizLinkId : Option String
  questionsJson : Option String
  deriving DecidableEq, Repr

/-- One CSV row of results.csv (the columns the loader reads). -/
structure ResultRow where
  resultId : Option String
  sessionId : Option String
  quizLinkId : Option String
  pkiScore : Option String
  perceptionsJson : Option String
  createdAt : Option String
  deriving DecidableEq, Repr

/-- Left-to-right non-overlapping collapse of doubled double-quote
characters in a character list. -/
def collapseDQ : List Char → List Char
  | [] => []
  | [c] => [c]
  | c1 :: c2 :: rest =>
    if c1 = '"' ∧ c2 = '"' then '"' :: collapseDQ rest
    else c1 :: collapseDQ (c2 :: rest)

/-- Model of Python `s.replace(chr(34) ++ chr(34), chr(34))`: collapse
doubled double-quotes. -/
def pyCollapseDQ (s : String) : String :=
  ⟨collapseDQ s.data⟩

/-- Shared decode step for an embedded JSON cell: a strict attempt, then a
fallback attempt on the quote-collapsed text; a failure of the fallback
propagates. -/
def parseCell {α : Type} (loads : String → Except DecodeError α) (s : String) :
    Except DecodeError α :=
  match loads s with
  | Except.ok v => Except.ok v
  | Except.error _ => loads (pyCollapseDQ s)

/-- Question-map construction from the decoded Questions JSON items
(the inner loop of `load_quizzes`). -/
def qmapOfItems (items : List QItemRaw) : QMap :=
  items.foldl
    (fun qmap item =>
      let qid := pyStrip (pyOr2 item.id item.questionId)
      if qid = "" then qmap
      else
        let question := pyStrip (pyOr2 item.question item.questionText)
        let category := pyOrNone item.category
        let sources_list :=
          (item.sources.getD []).foldl
            (fun (acc : List Source) s =>
              let url := pyStrip (s.url.getD (""))
              if url = "" then acc
              else acc ++ [⟨pyOrNone s.name, url⟩])
            []
        dictInsert qmap qid ⟨qid, question, category, sources_list⟩)
    []

/-- Row loop of `load_quizzes`, carrying the accumulated quiz index. -/
def loadQuizzesGo (loads : String → Except DecodeError (List QItemRaw)) :
    List QuizRow → List (String × QMap) → Except DecodeError (List (String × QMap))
  | [], acc => Except.ok acc
  | row :: rest, acc =>
    let qlid := pyStrip (row.quizLinkId.getD (""))
    if qlid = "" then loadQuizzesGo loads rest acc
    else
      let qjson := pyStrip (row.questionsJson.getD (""))
      if qjson = "" then loadQuizzesGo loads rest acc
      else
        match parseCell loads qjson with
        | Except.error e => Except.error e
        | Except.ok items => loadQuizzesGo loads rest (dictInsert acc qlid (qmapOfItems items))

/-- Model of `load_quizzes`, parameterized by the stdlib JSON decoder
(`json.loads`), which is external to this repository. -/
def load_quizzes (loads : String → Except DecodeError (List QItemRaw)) (rows : List QuizRow) :
    Except DecodeError (List (String × QMap)) :=
  loadQuizzesGo loads rows []

/-- Normalized record built from one result row (the `norm` dict of
`load_results`). -/
def normRow (row : ResultRow) (perceptions : List Perception) : ResultRecord :=
  { result_id := pyStrip (row.resultId.getD (""))
    session_id := pyStrip (row.sessionId.getD (""))
    quiz_link_id := pyStrip (row.quizLinkId.getD (""))
    pki_score := row.pkiScore
    created_at := pyStrip (row.createdAt.getD (""))
    perceptions := perceptions }

/-- Row loop of `load_results`, carrying the accumulated record list. -/
def loadResultsGo (loads : String → Except DecodeError (List Perception)) :
    List ResultRow → List ResultRecord → Except DecodeError (List ResultRecord)
  | [], acc => Except.ok acc
  | row :: rest, acc =>
    let pstr := pyStrip (row.perceptionsJson.getD (""))
    let pres : Except DecodeError (List Perception) :=
      if pstr ≠ "" then parseCell loads pstr else Except.ok []
    match pres with
    | Except.error e => Except.error e
    | Except.ok perceptions =>
      let norm := normRow row perceptions
      if norm.result_id ≠ "" then loadResultsGo loads rest (acc ++ [norm])
      else loadResultsGo loads rest acc

/-- Model of `load_results`, parameterized by the stdlib JSON decoder. -/
def load_results (loads : String → Except DecodeError (List Perception)) (rows : List ResultRow) :
    Except DecodeError (List ResultRecord) :=
  loadResultsGo loads rows []

/-- Process environment: a finite map from variable names to values. -/
abbrev Env := List (String × String)

/-- One iteration of the `.env` loader: process a single raw line against
the current environment. -/
def processEnvLine (env : Env) (raw : String) : Env :=
  let line := pyStrip raw
  if line = "" then env
  else if listStartsWith line.data [ '#' ] then env
  else
    let line2 :=
      if listStartsWith (pyLower line).data ("export ").data then pyLStrip (pyDrop 7 line)
      else line
    if ¬ ('=' ∈ line2.data) then env
    else
      let key := pyStrip ⟨line2.data.takeWhile (fun c => c ≠ '=')⟩
      let rawVal : String := ⟨(line2.data.dropWhile (fun c => c ≠ '=')).drop 1⟩
      let val := pyStripChar (Char.ofNat 39) (pyStripChar '"' (pyStrip rawVal))
      if key ≠ "" ∧ dlookup env key = Option.none then dictInsert env key val
      else env

/-- Model of `load_env_file` (present identically in both scripts): `none`
content stands for a missing file; otherwise the file's lines are folded
over the environment. -/
def load_env_file (content : Option (List String)) (env : Env) : Env :=
  match content with
  | Option.none => env
  | some lines => lines.foldl processEnvLine env

/-- Command-line flags of the trends tool relevant to source selection. -/
structure TrendsArgs where
  include_rss : Bool
  realtime : Bool
  search_only : Bool
  max_results : ℕ
  deriving DecidableEq, Repr

/-- One realtime trending story, as simplified by `fetch_gb_realtime`. -/
structure RTItem where
  label : String
  entities : List String
  started : Option String
  deriving DecidableEq, Repr

/-- Default-source rule of the trends tool `main`: when neither RSS nor
realtime nor search-only was requested, realtime is switched on. -/
def applyDefaultSource (args : TrendsArgs) : TrendsArgs :=
  if ¬ args.include_rss ∧ ¬ args.realtime ∧ ¬ args.search_only then
    { args with realtime := true }
  else args

/-- External calls the trends tool `main` can make, tagged by call site. -/
inductive TrendAction where
  | callSearch
  | callRealtime
  | callRSSFallback
  | callRSS
  deriving DecidableEq, BEq, Repr

/-- Sequence of external calls made by the trends tool `main`, as a function
of the flags and of the realtime fetch outcome (an `error` result triggers
the RSS fallback; RSS outcomes trigger nothing further). -/
def trendsMainActions (args : TrendsArgs) (rt : Except String (List RTItem)) :
    List TrendAction :=
  let a := applyDefaultSource args
  [TrendAction.callSearch]
    ++ (if a.realtime then
          TrendAction.callRealtime ::
            (match rt with
             | Except.error _ => [TrendAction.callRSSFallback]
             | Except.ok _ => [])
        else [])
    ++ (if a.include_rss then [TrendAction.callRSS] else [])

/-- The name/url pair a `Source` contributes to output lists. -/
def mkSrcOut (s : Source) : SourceOut :=
  ⟨pyOrS (s.name.getD ("")) s.url, s.url⟩

/-- The stripped question id of a perception entry. -/
def entryQid (e : Perception) : String :=
  pyStrip (e.questionId.getD (""))

/-- The absolute-error field computed for one perception entry. -/
def errOf (e : Perception) : Option ℚ :=
  if e.userGuessValue ≠ PyVal.none ∧ e.actualValue ≠ PyVal.none then
    match pyFloat e.userGuessValue, pyFloat e.actualValue with
    | some x, some y => some |x - y|
    | _, _ => Option.none
  else Option.none

/-- The source list attached to one item. -/
def srcsOf (qm : QMap) (e : Perception) : List SourceOut :=
  match dlookup qm (entryQid e) with
  | some m => m.sources.map mkSrcOut
  | Option.none => []

/-- The item built for one perception entry. -/
def itemOf (qm : QMap) (e : Perception) : Item :=
  { question_id := entryQid e
    question :=
      pyStrip (pyOrS (e.questionText.getD (""))
        (match dlookup qm (entryQid e) with
         | some m => m.question
         | Option.none => ""))
    category :=
      match dlookup qm (entryQid e) with
      | some m => m.category
      | Option.none => Option.none
    user_guess := e.userGuessValue
    actual_value := e.actualValue
    abs_error := errOf e
    sources := srcsOf qm e }

/-- The sources one perception entry feeds into the candidate dictionary. -/
def entrySrcs (qm : QMap) (e : Perception) : List Source :=
  match dlookup qm (entryQid e) with
  | some m => m.sources
  | Option.none => []

/-- All sources fed into the candidate dictionary, in processing order. -/
def processedSources (qm : QMap) : List Perception → List Source
  | [] => []
  | e :: r => entrySrcs qm e ++ processedSources qm r

/-- URL-keyed dictionary fold over a source list. -/
def dedupFold (l : List Source) (d : List (String × Source)) : List (String × Source) :=
  l.foldl (fun d s => dictInsert d s.url s) d

/-- Per-item absolute differences over exactly the entries whose guess and
actual values both convert to numbers (the claim's reading of the aggregate
error list). -/
def numericAbsErrors (ps : List Perception) : List ℚ :=
  ps.filterMap (fun e =>
    match pyFloat e.userGuessValue, pyFloat e.actualValue with
    | some x, some y => some |x - y|
    | _, _ => Option.none)

/-- Worked-example perception with numeric guess 10 and actual 15. -/
def exPerc1 : Perception :=
  ⟨some ("q1"), PyVal.num 10, PyVal.num 15, Option.none, Option.none⟩

/-- Worked-example perception with non-numeric guess and actual 5. -/
def exPerc2 : Perception :=
  ⟨some ("q2"), PyVal.str ("bad"), PyVal.num 5, Option.none, Option.none⟩

/-- Worked-example result record with the two perceptions above. -/
def exRecord : ResultRecord :=
  ⟨"r1", "s1", "ql1", Option.none, "2024-01-01", [exPerc1, exPerc2]⟩

/-- The last source with a given URL in a processing sequence. -/
def lastWith (u : String) : List Source → Option Source
  | [] => Option.none
  | s :: r =>
    match lastWith u r with
    | some t => some t
    | Option.none => if s.url = u then some s else Option.none

/-- Example source without a display name. -/
def exSrcA : Source := ⟨Option.none, "https://x"⟩

/-- Example source sharing the URL of `exSrcA` but carrying a name. -/
def exSrcB : Source := ⟨some ("X site"), "https://x"⟩

/-- Example quiz map with two questions whose sources share one URL. -/
def exQMap : QMap :=
  [("q1", ⟨"q1", "Q1", Option.none, [exSrcA]⟩),
   ("q2", ⟨"q2", "Q2", Option.none, [exSrcB]⟩)]

/-- Example result whose two perceptions hit both questions of `exQMap`. -/
def exRecord2 : ResultRecord :=
  ⟨"r2", "s2", "ql", Option.none, "",
   [⟨some ("q1"), PyVal.none, PyVal.none, Option.none, Option.none⟩,
    ⟨some ("q2"), PyVal.none, PyVal.none, Option.none, Option.none⟩]⟩

/-- Decoder model that fails on every document with the stdlib's generic
message, carrying the document and position but no row or field reference
(as `json.JSONDecodeError` does). -/
def failLoads : String → Except DecodeError (List QItemRaw) :=
  fun s => Except.error ⟨"Expecting value: line 1 column 1 (char 0)", s, 0⟩

/-- Quiz row whose Questions JSON cell is undecodable. -/
def badQuizRow : QuizRow := ⟨some ("q1"), some ("notjson")⟩

/-- Quiz row with an empty Questions JSON cell, skipped by the loader. -/
def skipQuizRow : QuizRow := ⟨some ("q0"), Option.none⟩

/-- Perception-cell decoder model that fails on every document. -/
def failPerLoads : String → Except DecodeError (List Perception) :=
  fun s => Except.error ⟨"Expecting value: line 1 column 1 (char 0)", s, 0⟩

/-- Example result row with an id and empty perception cell. -/
def exRow1 : ResultRow :=
  ⟨some ("r1"), some ("s1"), some ("q1"), some ("7"), Option.none, some ("t1")⟩

/-- Example row lacking a Result ID (dropped by the loader). -/
def exRow2 : ResultRow :=
  ⟨Option.none, some ("s2"), some ("q2"), Option.none, Option.none, Option.none⟩

/-- The two example rows together. -/
def exResultRows : List ResultRow := [exRow1, exRow2]

theorem srcFold_fst (ss : List Source) (p : List SourceOut × List (String × Source)) :
    (ss.foldl
      (fun (p : List SourceOut × List (String × Source)) s =>
        (p.1 ++ [⟨pyOrS (s.name.getD ("")) s.url, s.url⟩], dictInsert p.2 s.url s)) p).1
    = p.1 ++ ss.map mkSrcOut := by
  induction ss generalizing p with
  | nil => simp
  | cons s rest ih => simp [ih, mkSrcOut]

theorem srcFold_snd (ss : List Source) (p : List SourceOut × List (String × Source)) :
    (ss.foldl
      (fun (p : List SourceOut × List (String × Source)) s =>
        (p.1 ++ [⟨pyOrS (s.name.getD ("")) s.url, s.url⟩], dictInsert p.2 s.url s)) p).2
    = dedupFold ss p.2 := by
  induction ss generalizing p with
  | nil => simp [dedupFold]
  | cons s rest ih => simp [ih, dedupFold]

theorem processEntry_fst (qm : QMap) (acc : List Item × List (String × Source)) (e : Perception) :
    (processEntry qm acc e).1 = acc.1 ++ [itemOf qm e] := by
  unfold processEntry itemOf srcsOf errOf entryQid
  cases h : dlookup qm (pyStrip (e.questionId.getD (""))) with
  | none => simp [h]
  | some m =>
    by_cases hs : m.sources = []
    · simp [h, hs]
    · simp [h, hs, srcFold_fst]

theorem processEntry_snd (qm : QMap) (acc : List Item × List (String × Source)) (e : Perception) :
    (processEntry qm acc e).2 = dedupFold (entrySrcs qm e) acc.2 := by
  unfold processEntry entrySrcs entryQid
  cases h : dlookup qm (pyStrip (e.questionId.getD (""))) with
  | none => simp [h, dedupFold]
  | some m =>
    by_cases hs : m.sources = []
    · simp [h, hs, dedupFold]
    · simp [h, hs, srcFold_snd]

theorem buildFold_fst (qm : QMap) (ps : List Perception)
    (acc : List Item × List (String × Source)) :
    (ps.foldl (processEntry qm) acc).1 = acc.1 ++ ps.map (itemOf qm) := by
  induction ps generalizing acc with
  | nil => simp
  | cons e rest ih =>
    have h2 : processEntry qm acc e = (acc.1 ++ [itemOf qm e], (processEntry qm acc e).2) := by
      rw [← processEntry_fst]
    simp only [List.foldl_cons]
    rw [ih (processEntry qm acc e), processEntry_fst]
    simp

theorem buildFold_snd (qm : QMap) (ps : List Perception)
    (acc : List Item × List (String × Source)) :
    (ps.foldl (processEntry qm) acc).2 = dedupFold (processedSources qm ps) acc.2 := by
  induction ps generalizing acc with
  | nil => simp [processedSources, dedupFold]
  | cons e rest ih =>
    simp only [List.foldl_cons, processedSources]
    rw [ih (processEntry qm acc e), processEntry_snd]
    simp [dedupFold, List.foldl_append]

theorem build_items (w : World) (r : ResultRecord) (qm : QMap) :
    (build_context_for_result w r qm).items = r.perceptions.map (itemOf qm) := by
  unfold build_context_for_result
  simp [buildFold_fst]

theorem build_candidates (w : World) (r : ResultRecord) (qm : QMap) :
    (build_context_for_result w r qm).candidate_sources
      = (dedupFold (processedSources qm r.perceptions) []).map (fun p => mkSrcOut p.2) := by
  unfold build_context_for_result
  simp [buildFold_snd, mkSrcOut]

/-- Per-item absolute differences over exactly the entries whose guess and
actual values both convert to numbers (the claim's reading of the aggregate
error list). -/
theorem errOf_eq (e : Perception) :
    errOf e =
      match pyFloat e.userGuessValue, pyFloat e.actualValue with
      | some x, some y => some |x - y|
      | _, _ => Option.none := by
  unfold errOf
  cases hu : e.userGuessValue <;> cases ha : e.actualValue <;> simp [pyFloat]

theorem build_errors (w : World) (r : ResultRecord) (qm : QMap) :
    (build_context_for_result w r qm).items.filterMap Item.abs_error
      = numericAbsErrors r.perceptions := by
  rw [build_items, List.filterMap_map]
  unfold numericAbsErrors
  congr 1
  funext e
  simp [Function.comp, itemOf, errOf_eq]

/-- C1: the summary's `mean_abs_error` is null exactly when no perception
item has both a numeric user guess and a numeric actual value, and otherwise
equals the arithmetic mean of the per-item absolute differences over exactly
those numeric items; `num_questions` is the number of perception entries. -/
theorem summary_mean_abs_error_correct (w : World) (r : ResultRecord) (qm : QMap) :
    (build_context_for_result w r qm).summary.num_questions = r.perceptions.length ∧
    (numericAbsErrors r.perceptions = [] →
      (build_context_for_result w r qm).summary.mean_abs_error = Option.none) ∧
    (numericAbsErrors r.perceptions ≠ [] →
      (build_context_for_result w r qm).summary.mean_abs_error =
        some ((numericAbsErrors r.perceptions).sum /
          ((numericAbsErrors r.perceptions).length : ℚ))) := by
  have hitems := build_items w r qm
  have herrs := build_errors w r qm
  refine ⟨?_, ?_, ?_⟩
  · show ((build_context_for_result w r qm).items.length) = _
    rw [hitems, List.length_map]
  · intro h
    show (if (build_context_for_result w r qm).items.filterMap Item.abs_error ≠ [] then
        some (((build_context_for_result w r qm).items.filterMap Item.abs_error).sum /
          (((build_context_for_result w r qm).items.filterMap Item.abs_error).length : ℚ))
      else Option.none) = _
    rw [herrs, h]
    simp
  · intro h
    show (if (build_context_for_result w r qm).items.filterMap Item.abs_error ≠ [] then
        some (((build_context_for_result w r qm).items.filterMap Item.abs_error).sum /
          (((build_context_for_result w r qm).items.filterMap Item.abs_error).length : ℚ))
      else Option.none) = _
    rw [herrs]
    simp [h]




/-- Concrete check of C1 on the spec's worked example: guesses (10, 15) and
("bad", 5) give abs errors 5 and null, mean 5. -/
theorem summary_mean_abs_error_correct_witness :
    numericAbsErrors exRecord.perceptions ≠ [] ∧
    (build_context_for_result ⟨[], 0⟩ exRecord []).summary.mean_abs_error = some 5 := by
  have hbad : pyFloatString ("bad") = Option.none := by decide
  have hcalc : numericAbsErrors exRecord.perceptions = [5] := by
    simp only [exRecord, exPerc1, exPerc2, numericAbsErrors, List.filterMap_cons,
      List.filterMap_nil, pyFloat, hbad]
    norm_num
  have h := summary_mean_abs_error_correct ⟨[], 0⟩ exRecord []
  refine ⟨by rw [hcalc]; simp, ?_⟩
  rw [h.2.2 (by rw [hcalc]; simp), hcalc]
  norm_num

/-- C2: the per-item absolute error is `|user - actual|` exactly when both
values convert to numbers, and null whenever either is missing or fails
conversion; every entry yields an item (the computation is total, never an
exception). -/
theorem item_abs_error_safe (w : World) (r : ResultRecord) (qm : QMap)
    (i : ℕ) (h : i < r.perceptions.length) :
    ∃ it : Item,
      (build_context_for_result w r qm).items[i]? = some it ∧
      (∀ x y : ℚ,
        pyFloat (r.perceptions.get ⟨i, h⟩).userGuessValue = some x →
        pyFloat (r.perceptions.get ⟨i, h⟩).actualValue = some y →
        it.abs_error = some |x - y|) ∧
      ((pyFloat (r.perceptions.get ⟨i, h⟩).userGuessValue = Option.none ∨
        pyFloat (r.perceptions.get ⟨i, h⟩).actualValue = Option.none) →
        it.abs_error = Option.none) := by
  refine ⟨itemOf qm (r.perceptions.get ⟨i, h⟩), ?_, ?_, ?_⟩
  · rw [build_items]
    rw [List.getElem?_map]
    rw [List.getElem?_eq_getElem h]
    simp
  · intro x y hx hy
    show errOf _ = _
    rw [errOf_eq, hx, hy]
  · intro hcase
    show errOf _ = _
    rw [errOf_eq]
    rcases hcase with hx | hy
    · rw [hx]
    · rw [hy]
      cases pyFloat (r.perceptions.get ⟨i, h⟩).userGuessValue <;> rfl

/-- Concrete check of C2: a non-numeric guess string yields a null error. -/
theorem item_abs_error_safe_witness :
    ∃ it : Item,
      (build_context_for_result ⟨[], 0⟩
        ⟨"r1", "s1", "ql1", Option.none, "",
         [⟨some ("q2"), PyVal.str ("bad"), PyVal.num 5, Option.none, Option.none⟩]⟩
        []).items[0]? = some it ∧ it.abs_error = Option.none := by
  obtain ⟨it, h1, _, h3⟩ := item_abs_error_safe ⟨[], 0⟩
    ⟨"r1", "s1", "ql1", Option.none, "",
     [⟨some ("q2"), PyVal.str ("bad"), PyVal.num 5, Option.none, Option.none⟩]⟩
    [] 0 (by decide)
  exact ⟨it, h1, h3 (Or.inl (by decide))⟩

/-- C10: a perception entry whose question id has no match in the quiz map
still yields an item, with null category, empty sources, and question text
taken from the entry's own text field (or empty); unmatched entries are
never dropped. -/
theorem unmatched_perception_kept (w : World) (r : ResultRecord) (qm : QMap)
    (i : ℕ) (h : i < r.perceptions.length)
    (hnone : dlookup qm (entryQid (r.perceptions.get ⟨i, h⟩)) = Option.none) :
    (build_context_for_result w r qm).items.length = r.perceptions.length ∧
    ∃ it : Item,
      (build_context_for_result w r qm).items[i]? = some it ∧
      it.question_id = entryQid (r.perceptions.get ⟨i, h⟩) ∧
      it.question = pyStrip ((r.perceptions.get ⟨i, h⟩).questionText.getD ("")) ∧
      it.category = Option.none ∧
      it.sources = [] := by
  constructor
  · rw [build_items, List.length_map]
  refine ⟨itemOf qm (r.perceptions.get ⟨i, h⟩), ?_, ?_, ?_, ?_, ?_⟩
  · rw [build_items, List.getElem?_map, List.getElem?_eq_getElem h]
    simp
  · rfl
  · show pyStrip
        (pyOrS ((r.perceptions.get ⟨i, h⟩).questionText.getD (""))
          (match dlookup qm (entryQid (r.perceptions.get ⟨i, h⟩)) with
           | some m => m.question
           | Option.none => "")) = _
    rw [hnone]
    unfold pyOrS
    by_cases he : (r.perceptions.get ⟨i, h⟩).questionText.getD ("") = "" <;>
      (simp only [List.get_eq_getElem] at he; simp [he])
  · show (match dlookup qm (entryQid _) with
      | some m => m.category
      | Option.none => Option.none) = Option.none
    rw [hnone]
  · show srcsOf qm _ = []
    unfold srcsOf
    rw [hnone]

/-- Concrete check of C10: with an empty quiz map the single entry is kept
with null category and no sources. -/
theorem unmatched_perception_kept_witness :
    (build_context_for_result ⟨[], 0⟩
        ⟨"r1", "s1", "ql1", Option.none, "",
         [⟨some ("qX"), PyVal.num 1, PyVal.num 2, Option.none, some ("What?")⟩]⟩
        []).items.length = 1 ∧
    ∃ it : Item,
      (build_context_for_result ⟨[], 0⟩
          ⟨"r1", "s1", "ql1", Option.none, "",
           [⟨some ("qX"), PyVal.num 1, PyVal.num 2, Option.none, some ("What?")⟩]⟩
          []).items[0]? = some it ∧
      it.question = "What?" ∧ it.category = Option.none ∧ it.sources = [] := by
  obtain ⟨hlen, it, h1, _, h3, h4, h5⟩ := unmatched_perception_kept ⟨[], 0⟩
    ⟨"r1", "s1", "ql1", Option.none, "",
     [⟨some ("qX"), PyVal.num 1, PyVal.num 2, Option.none, some ("What?")⟩]⟩
    [] 0 (by decide) (by decide)
  exact ⟨hlen, it, h1, by rw [h3]; decide, h4, h5⟩

/-- The last source with a given URL in a processing sequence. -/
theorem dlookup_append {α : Type} (d1 d2 : List (String × α)) (u : String) :
    dlookup (d1 ++ d2) u =
      match dlookup d1 u with
      | some v => some v
      | Option.none => dlookup d2 u := by
  induction d1 with
  | nil => rfl
  | cons p rest ih => by_cases hpu : p.1 = u <;> simp [dlookup, hpu, ih]

theorem dlookup_eq_none_of_not_any {α : Type} (d : List (String × α)) (k : String)
    (h : d.any (fun p => p.1 = k) = false) : dlookup d k = Option.none := by
  induction d with
  | nil => rfl
  | cons p rest ih =>
    simp only [List.any_cons, Bool.or_eq_false_iff] at h
    have hp : ¬ p.1 = k := by simpa using h.1
    simp [dlookup, hp, ih h.2]

theorem dlookup_mapUpdate_self {α : Type} (d : List (String × α)) (k : String) (v : α)
    (hany : d.any (fun p => p.1 = k) = true) :
    dlookup (d.map (fun p => if p.1 = k then (k, v) else p)) k = some v := by
  induction d with
  | nil => simp at hany
  | cons p rest ih =>
    by_cases hp : p.1 = k
    · simp [dlookup, hp]
    · simp only [List.any_cons, Bool.or_eq_true] at hany
      have hrest : rest.any (fun p => p.1 = k) = true := by
        rcases hany with h | h
        · exact absurd (by simpa using h) hp
        · exact h
      simp only [List.map_cons, if_neg hp, dlookup]
      exact ih hrest

theorem dlookup_mapUpdate_other {α : Type} (d : List (String × α)) (k u : String) (v : α)
    (hne : u ≠ k) :
    dlookup (d.map (fun p => if p.1 = k then (k, v) else p)) u = dlookup d u := by
  induction d with
  | nil => rfl
  | cons p rest ih =>
    by_cases hp : p.1 = k
    · simp only [List.map_cons, if_pos hp, dlookup]
      rw [if_neg (fun h => hne h.symm), if_neg (by rw [hp]; exact fun h => hne h.symm)]
      exact ih
    · simp only [List.map_cons, if_neg hp, dlookup]
      by_cases hpu : p.1 = u <;> simp [hpu, ih]

theorem dlookup_dictInsert_self {α : Type} (d : List (String × α)) (k : String) (v : α) :
    dlookup (dictInsert d k v) k = some v := by
  unfold dictInsert
  by_cases hany : d.any (fun p => p.1 = k)
  · simp only [hany, if_pos]
    exact dlookup_mapUpdate_self d k v hany
  · simp only [hany, if_neg, Bool.not_eq_true]
    rw [dlookup_append, dlookup_eq_none_of_not_any d k (Bool.eq_false_iff.mpr hany)]
    simp [dlookup]

theorem dlookup_dictInsert_other {α : Type} (d : List (String × α)) (k u : String) (v : α)
    (hne : u ≠ k) : dlookup (dictInsert d k v) u = dlookup d u := by
  unfold dictInsert
  by_cases hany : d.any (fun p => p.1 = k)
  · simp only [hany, if_pos]
    exact dlookup_mapUpdate_other d k u v hne
  · simp only [hany, if_neg, Bool.not_eq_true]
    rw [dlookup_append]
    cases hd : dlookup d u with
    | some w => rfl
    | none => simp only [dlookup, if_neg (show ¬ k = u from fun h => hne h.symm)]

theorem mem_dictInsert {α : Type} (d : List (String × α)) (k : String) (v : α)
    (p : String × α) (hp : p ∈ dictInsert d k v) : p ∈ d ∨ p = (k, v) := by
  unfold dictInsert at hp
  by_cases hany : d.any (fun q => q.1 = k)
  · simp only [hany, if_pos] at hp
    rcases List.mem_map.mp hp with ⟨q, hq, hqe⟩
    by_cases hqk : q.1 = k
    · right
      rw [← hqe]
      simp [hqk]
    · left
      rw [← hqe]
      simpa [hqk] using hq
  · simp only [hany, if_neg, Bool.not_eq_true] at hp
    rcases List.mem_append.mp hp with h | h
    · exact Or.inl h
    · exact Or.inr (by simpa using h)

theorem dictInsert_keys {α : Type} (d : List (String × α)) (k : String) (v : α) :
    (dictInsert d k v).map Prod.fst =
      if d.any (fun p => p.1 = k) then d.map Prod.fst else d.map Prod.fst ++ [k] := by
  unfold dictInsert
  by_cases hany : d.any (fun p => p.1 = k)
  · simp only [hany, if_pos]
    rw [List.map_map]
    apply List.map_congr_left
    intro p _
    by_cases hp : p.1 = k <;> simp [hp]
  · simp [hany]

theorem dictInsert_keys_nodup {α : Type} (d : List (String × α)) (k : String) (v : α)
    (h : (d.map Prod.fst).Nodup) : ((dictInsert d k v).map Prod.fst).Nodup := by
  rw [dictInsert_keys]
  by_cases hany : d.any (fun p => p.1 = k)
  · simpa [hany] using h
  · simp only [hany, if_neg, Bool.not_eq_true]
    rw [List.nodup_append]
    refine ⟨h, List.nodup_singleton k, ?_⟩
    intro x hx
    simp only [List.mem_singleton]
    intro hxk
    rcases List.mem_map.mp hx with ⟨p, hp, hpe⟩
    have hany2 : d.any (fun q => q.1 = k) = false := Bool.eq_false_iff.mpr hany
    rw [List.any_eq_false] at hany2
    apply hany2 p hp
    simp [hpe, hxk]

theorem dedupFold_lookup (l : List Source) (d : List (String × Source)) (u : String) :
    dlookup (dedupFold l d) u =
      match lastWith u l with
      | some t => some t
      | Option.none => dlookup d u := by
  induction l generalizing d with
  | nil => rfl
  | cons s r ih =>
    show dlookup (dedupFold r (dictInsert d s.url s)) u = _
    rw [ih]
    cases hl : lastWith u r with
    | some t => simp [lastWith, hl]
    | none =>
      by_cases hsu : s.url = u
      · subst hsu
        simp [lastWith, hl, dlookup_dictInsert_self]
      · simp [lastWith, hl, hsu, dlookup_dictInsert_other d s.url u s (Ne.symm hsu)]

theorem dedupFold_keys_nodup (l : List Source) (d : List (String × Source))
    (h : (d.map Prod.fst).Nodup) : ((dedupFold l d).map Prod.fst).Nodup := by
  induction l generalizing d with
  | nil => exact h
  | cons s r ih => exact ih (dictInsert d s.url s) (dictInsert_keys_nodup d s.url s h)

theorem dedupFold_key_is_url (l : List Source) (d : List (String × Source))
    (h : ∀ p ∈ d, p.1 = p.2.url) : ∀ p ∈ dedupFold l d, p.1 = p.2.url := by
  induction l generalizing d with
  | nil => exact h
  | cons s r ih =>
    refine ih (dictInsert d s.url s) ?_
    intro p hp
    rcases mem_dictInsert d s.url s p hp with hin | heq
    · exact h p hin
    · rw [heq]

theorem dedupFold_values_from (l : List Source) (d : List (String × Source)) :
    ∀ p ∈ dedupFold l d, p.2 ∈ l ∨ p ∈ d := by
  induction l generalizing d with
  | nil => intro p hp; exact Or.inr hp
  | cons s r ih =>
    intro p hp
    rcases ih (dictInsert d s.url s) p hp with hr | hd
    · exact Or.inl (List.mem_cons_of_mem s hr)
    · rcases mem_dictInsert d s.url s p hd with hin | heq
      · exact Or.inr hin
      · exact Or.inl (by rw [heq]; exact List.mem_cons_self s r)

theorem dlookup_mem {α : Type} (d : List (String × α)) (k : String) (v : α)
    (h : dlookup d k = some v) : (k, v) ∈ d := by
  induction d with
  | nil => simp [dlookup] at h
  | cons p rest ih =>
    by_cases hp : p.1 = k
    · simp only [dlookup, if_pos hp] at h
      have : p = (k, v) := Prod.ext hp (by injection h)
      rw [← this]
      exact List.mem_cons_self p rest
    · simp only [dlookup, if_neg hp] at h
      exact List.mem_cons_of_mem p (ih h)

theorem lastWith_url (u : String) : ∀ (l : List Source) (t : Source),
    lastWith u l = some t → t.url = u := by
  intro l
  induction l with
  | nil => intro t h; simp [lastWith] at h
  | cons s r ih =>
    intro t h
    simp only [lastWith] at h
    cases hl : lastWith u r with
    | some t2 =>
      rw [hl] at h
      injection h with h2
      rw [← h2]
      exact ih t2 hl
    | none =>
      rw [hl] at h
      by_cases hsu : s.url = u
      · simp only [if_pos hsu] at h
        injection h with h2
        rw [← h2]
        exact hsu
      · simp [hsu] at h

/-- C3: the candidate-source list has pairwise-distinct URLs (so two
questions sharing a URL contribute exactly one entry); the entry for a URL
carries the name of the last source processed with that URL (the URL itself
standing in for a missing name); and every entry stems from some processed
source. -/
theorem candidate_sources_dedup (w : World) (r : ResultRecord) (qm : QMap) :
    ((build_context_for_result w r qm).candidate_sources.map SourceOut.url).Nodup ∧
    (∀ u t, lastWith u (processedSources qm r.perceptions) = some t →
      (⟨pyOrS (t.name.getD ("")) t.url, t.url⟩ : SourceOut) ∈
        (build_context_for_result w r qm).candidate_sources) ∧
    (∀ c ∈ (build_context_for_result w r qm).candidate_sources,
      ∃ s, s ∈ processedSources qm r.perceptions ∧ s.url = c.url) := by
  have hc := build_candidates w r qm
  refine ⟨?_, ?_, ?_⟩
  · rw [hc]
    have hinv := dedupFold_key_is_url (processedSources qm r.perceptions) []
      (by intro p hp; simp at hp)
    have hmaps :
        ((dedupFold (processedSources qm r.perceptions) []).map
            (fun p => mkSrcOut p.2)).map SourceOut.url
          = (dedupFold (processedSources qm r.perceptions) []).map Prod.fst := by
      rw [List.map_map]
      apply List.map_congr_left
      intro p hp
      have h2 := hinv p hp
      simp only [Function.comp, mkSrcOut]
      exact h2.symm
    rw [hmaps]
    exact dedupFold_keys_nodup (processedSources qm r.perceptions) [] (by simp)
  · intro u t hlast
    rw [hc]
    have hlook : dlookup (dedupFold (processedSources qm r.perceptions) []) u = some t := by
      rw [dedupFold_lookup, hlast]
    have hmem := dlookup_mem (dedupFold (processedSources qm r.perceptions) []) u t hlook
    exact List.mem_map.mpr ⟨(u, t), hmem, rfl⟩
  · intro c hc2
    rw [hc] at hc2
    rcases List.mem_map.mp hc2 with ⟨p, hp, hpe⟩
    rcases dedupFold_values_from (processedSources qm r.perceptions) [] p hp with hval | hnil
    · exact ⟨p.2, hval, by rw [← hpe]; rfl⟩
    · simp at hnil





/-- Concrete check of C3: with two questions sharing one source URL, the
candidate entry keeps the name of the last processed source. -/
theorem candidate_sources_dedup_witness :
    lastWith ("https://x") (processedSources exQMap exRecord2.perceptions) = some exSrcB ∧
    (⟨"X site", "https://x"⟩ : SourceOut) ∈
      (build_context_for_result ⟨[], 0⟩ exRecord2 exQMap).candidate_sources := by
  have h := candidate_sources_dedup ⟨[], 0⟩ exRecord2 exQMap
  have hl : lastWith ("https://x") (processedSources exQMap exRecord2.perceptions)
      = some exSrcB := by decide
  have hmem := h.2.1 ("https://x") exSrcB hl
  have heq : (⟨pyOrS (exSrcB.name.getD ("")) exSrcB.url, exSrcB.url⟩ : SourceOut)
      = ⟨"X site", "https://x"⟩ := by decide
  exact ⟨hl, heq ▸ hmem⟩

/-- C4: `build_prompt_messages` yields exactly two messages with roles
system then user; the user content is the serialization of a JSON object
whose top-level keys are exactly task, result_context, requirements and
format (round-tripping that serialization through a JSON parser is the
stdlib's contract, outside this embedding). -/
theorem prompt_messages_shape (nr : ℚ → String) (w : World) (context : Context) :
    build_prompt_messages nr w context
      = [⟨"system", sys_prompt⟩, ⟨"user", Json.dumps nr (user_payload context)⟩] ∧
    (build_prompt_messages nr w context).length = 2 ∧
    (build_prompt_messages nr w context).map Message.role = ["system", "user"] ∧
    jsonTopKeys (user_payload context) = ["task", "result_context", "requirements", "format"] :=
  ⟨rfl, rfl, rfl, rfl⟩

/-- C8: the context built for a record and the prompt messages built from it
are invariant under the ambient world (environment and clock) and fully
determined by the inputs; the only timestamp in the context is the
`created_at` echoed from the input record. -/
theorem context_prompt_deterministic (nr : ℚ → String) (w1 w2 : World)
    (r : ResultRecord) (qm : QMap) :
    build_context_for_result w1 r qm = build_context_for_result w2 r qm ∧
    build_prompt_messages nr w1 (build_context_for_result w1 r qm)
      = build_prompt_messages nr w2 (build_context_for_result w2 r qm) ∧
    (build_context_for_result w1 r qm).created_at = r.created_at :=
  ⟨rfl, rfl, rfl⟩

theorem loadQuizzesGo_append (loads : String → Except DecodeError (List QItemRaw))
    (pre post : List QuizRow) (acc : List (String × QMap)) :
    loadQuizzesGo loads (pre ++ post) acc =
      match loadQuizzesGo loads pre acc with
      | Except.ok acc2 => loadQuizzesGo loads post acc2
      | Except.error e => Except.error e := by
  induction pre generalizing acc with
  | nil => rfl
  | cons row rest ih =>
    show loadQuizzesGo loads (row :: (rest ++ post)) acc = _
    by_cases h1 : pyStrip (row.quizLinkId.getD ("")) = ""
    · simp only [loadQuizzesGo, h1, if_pos]
      exact ih acc
    · by_cases h2 : pyStrip (row.questionsJson.getD ("")) = ""
      · simp only [loadQuizzesGo, h1, h2, if_neg, if_pos]
        simp only [h1, ite_false, h2, ite_true]
        exact ih acc
      · simp only [loadQuizzesGo, h1, h2, ite_false]
        cases hp : parseCell loads (pyStrip (row.questionsJson.getD (""))) with
        | error e => rfl
        | ok items => exact ih (dictInsert acc (pyStrip (row.quizLinkId.getD (""))) (qmapOfItems items))

/-- C5 (amended): a row whose Questions JSON cell fails both the strict
decode and the quote-collapsing fallback makes `load_quizzes` fail with the
fallback attempt's decode error, which propagates to the caller instead of
being swallowed. -/
theorem decode_error_propagates (loads : String → Except DecodeError (List QItemRaw))
    (pre : List QuizRow) (row : QuizRow) (post : List QuizRow)
    (q : List (String × QMap)) (e1 e2 : DecodeError)
    (hok : load_quizzes loads pre = Except.ok q)
    (hid : pyStrip (row.quizLinkId.getD ("")) ≠ "")
    (hcell : pyStrip (row.questionsJson.getD ("")) ≠ "")
    (h1 : loads (pyStrip (row.questionsJson.getD (""))) = Except.error e1)
    (h2 : loads (pyCollapseDQ (pyStrip (row.questionsJson.getD ("")))) = Except.error e2) :
    load_quizzes loads (pre ++ row :: post) = Except.error e2 := by
  unfold load_quizzes at hok ⊢
  rw [loadQuizzesGo_append, hok]
  show loadQuizzesGo loads (row :: post) q = _
  simp only [loadQuizzesGo, hid, hcell, ite_false]
  have hparse : parseCell loads (pyStrip (row.questionsJson.getD ("")))
      = Except.error e2 := by
    unfold parseCell
    rw [h1, h2]
  simp [hparse]




/-- C5 counterexample: two inputs whose failing row index differs (0 in the
first run, 1 in the second) produce the identical decode error, so the
propagated error does not name the offending row — no function can read a
row index off it. -/
theorem decode_error_row_anonymous_cx :
    load_quizzes failLoads [badQuizRow]
      = Except.error ⟨"Expecting value: line 1 column 1 (char 0)", "notjson", 0⟩ ∧
    load_quizzes failLoads [skipQuizRow, badQuizRow]
      = Except.error ⟨"Expecting value: line 1 column 1 (char 0)", "notjson", 0⟩ ∧
    ¬ ∃ rowIndexOf : DecodeError → ℕ,
        rowIndexOf ⟨"Expecting value: line 1 column 1 (char 0)", "notjson", 0⟩ = 0 ∧
        rowIndexOf ⟨"Expecting value: line 1 column 1 (char 0)", "notjson", 0⟩ = 1 := by
  refine ⟨by rfl, by rfl, ?_⟩
  rintro ⟨f, h0, h1⟩
  rw [h0] at h1
  exact Nat.zero_ne_one h1

/-- Concrete check of the amended C5: the undecodable row after a decodable
prefix makes the loader fail with the fallback error. -/
theorem decode_error_propagates_witness :
    load_quizzes failLoads [skipQuizRow, badQuizRow]
      = Except.error ⟨"Expecting value: line 1 column 1 (char 0)", "notjson", 0⟩ := by
  have h := decode_error_propagates failLoads [skipQuizRow] badQuizRow [] []
    ⟨"Expecting value: line 1 column 1 (char 0)", "notjson", 0⟩
    ⟨"Expecting value: line 1 column 1 (char 0)", "notjson", 0⟩
    (by rfl) (by decide) (by decide) (by rfl) (by rfl)
  simpa using h

theorem loadResultsGo_spec (loads : String → Except DecodeError (List Perception)) :
    ∀ (rows : List ResultRow) (acc recs : List ResultRecord),
    loadResultsGo loads rows acc = Except.ok recs →
    recs.length = acc.length
        + rows.countP (fun row => decide (pyStrip (row.resultId.getD ("")) ≠ "")) ∧
    (∀ rec ∈ recs, rec ∈ acc ∨ rec.result_id ≠ "") ∧
    (∀ row ∈ rows, pyStrip (row.perceptionsJson.getD ("")) = "" →
      pyStrip (row.resultId.getD ("")) ≠ "" → normRow row [] ∈ recs) ∧
    (∀ a ∈ acc, a ∈ recs) := by
  intro rows
  induction rows with
  | nil =>
    intro acc recs h
    simp only [loadResultsGo] at h
    injection h with h2
    subst h2
    refine ⟨by simp, fun rec hrec => Or.inl hrec, by simp, fun a ha => ha⟩
  | cons row rest ih =>
    intro acc recs h
    by_cases hcell : pyStrip (row.perceptionsJson.getD ("")) = ""
    · have hbranch :
          loadResultsGo loads (row :: rest) acc =
            (if (normRow row []).result_id ≠ "" then loadResultsGo loads rest (acc ++ [normRow row []])
             else loadResultsGo loads rest acc) := by
        simp only [loadResultsGo, hcell, ne_eq, not_true_eq_false, ite_false]
      rw [hbranch] at h
      by_cases hid : (normRow row []).result_id ≠ ""
      · rw [if_pos hid] at h
        obtain ⟨hl, hmem, hrows, hacc⟩ := ih (acc ++ [normRow row []]) recs h
        have hidr : pyStrip (row.resultId.getD ("")) ≠ "" := hid
        refine ⟨?_, ?_, ?_, ?_⟩
        · rw [hl]
          simp [List.countP_cons, hidr]
          omega
        · intro rec hrec
          rcases hmem rec hrec with hin | hne
          · rcases List.mem_append.mp hin with hh | hh
            · exact Or.inl hh
            · right
              have : rec = normRow row [] := by simpa using hh
              rw [this]
              exact hid
          · exact Or.inr hne
        · intro row2 hrow2 hc2 hi2
          rcases List.mem_cons.mp hrow2 with he | hin
          · subst he
            exact hacc (normRow row2 []) (by simp)
          · exact hrows row2 hin hc2 hi2
        · intro a ha
          exact hacc a (List.mem_append.mpr (Or.inl ha))
      · rw [if_neg hid] at h
        obtain ⟨hl, hmem, hrows, hacc⟩ := ih acc recs h
        have hidr : ¬ pyStrip (row.resultId.getD ("")) ≠ "" := hid
        refine ⟨?_, hmem, ?_, hacc⟩
        · rw [hl]
          simp [List.countP_cons, hidr]
        · intro row2 hrow2 hc2 hi2
          rcases List.mem_cons.mp hrow2 with he | hin
          · subst he
            exact absurd hi2 hidr
          · exact hrows row2 hin hc2 hi2
    · cases hp : parseCell loads (pyStrip (row.perceptionsJson.getD (""))) with
      | error e =>
        have : loadResultsGo loads (row :: rest) acc = Except.error e := by
          simp only [loadResultsGo, hcell, ne_eq, not_false_eq_true, ite_true, hp]
        rw [this] at h
        cases h
      | ok ps =>
        have hbranch :
            loadResultsGo loads (row :: rest) acc =
              (if (normRow row ps).result_id ≠ "" then
                loadResultsGo loads rest (acc ++ [normRow row ps])
               else loadResultsGo loads rest acc) := by
          simp only [loadResultsGo, hcell, ne_eq, not_false_eq_true, ite_true, hp]
        rw [hbranch] at h
        by_cases hid : (normRow row ps).result_id ≠ ""
        · rw [if_pos hid] at h
          obtain ⟨hl, hmem, hrows, hacc⟩ := ih (acc ++ [normRow row ps]) recs h
          have hidr : pyStrip (row.resultId.getD ("")) ≠ "" := hid
          refine ⟨?_, ?_, ?_, ?_⟩
          · rw [hl]
            simp [List.countP_cons, hidr]
            omega
          · intro rec hrec
            rcases hmem rec hrec with hin | hne
            · rcases List.mem_append.mp hin with hh | hh
              · exact Or.inl hh
              · right
                have : rec = normRow row ps := by simpa using hh
                rw [this]
                exact hid
            · exact Or.inr hne
          · intro row2 hrow2 hc2 hi2
            rcases List.mem_cons.mp hrow2 with he | hin
            · subst he
              exact absurd hc2 hcell
            · exact hrows row2 hin hc2 hi2
          · intro a ha
            exact hacc a (List.mem_append.mpr (Or.inl ha))
        · rw [if_neg hid] at h
          obtain ⟨hl, hmem, hrows, hacc⟩ := ih acc recs h
          have hidr : ¬ pyStrip (row.resultId.getD ("")) ≠ "" := hid
          refine ⟨?_, hmem, ?_, hacc⟩
          · rw [hl]
            simp [List.countP_cons, hidr]
          · intro row2 hrow2 hc2 hi2
            rcases List.mem_cons.mp hrow2 with he | hin
            · subst he
              exact absurd hc2 hcell
            · exact hrows row2 hin hc2 hi2

/-- C6: a successful `load_results` run yields exactly one record per row
with a non-empty (stripped) Result ID — other rows are dropped silently, and
no produced record has an empty id — and a kept row whose Perceptions JSON
cell is empty yields its normalized record with an empty perceptions list. -/
theorem load_results_filters (loads : String → Except DecodeError (List Perception))
    (rows : List ResultRow) (recs : List ResultRecord)
    (h : load_results loads rows = Except.ok recs) :
    recs.length = rows.countP (fun row => decide (pyStrip (row.resultId.getD ("")) ≠ "")) ∧
    (∀ rec ∈ recs, rec.result_id ≠ "") ∧
    (∀ row ∈ rows, pyStrip (row.perceptionsJson.getD ("")) = "" →
      pyStrip (row.resultId.getD ("")) ≠ "" → normRow row [] ∈ recs) := by
  obtain ⟨hl, hmem, hrows, _⟩ := loadResultsGo_spec loads rows [] recs h
  refine ⟨by simpa using hl, ?_, hrows⟩
  intro rec hrec
  rcases hmem rec hrec with hin | hne
  · simp at hin
  · exact hne





/-- Concrete check of C6: of two rows only the one with a Result ID yields a
record, and its perceptions default to the empty list. -/
theorem load_results_filters_witness :
    load_results failPerLoads exResultRows = Except.ok [normRow exRow1 []] ∧
    ([normRow exRow1 []].length
      = exResultRows.countP (fun row => decide (pyStrip (row.resultId.getD ("")) ≠ ""))) ∧
    normRow exRow1 [] ∈ [normRow exRow1 []] := by
  have hok : load_results failPerLoads exResultRows = Except.ok [normRow exRow1 []] := by rfl
  have h := load_results_filters failPerLoads exResultRows [normRow exRow1 []] hok
  exact ⟨hok, h.1.symm ▸ rfl, h.2.2 exRow1 (by decide) (by decide) (by decide)⟩

theorem mem_pyStripList (c : Char) (cs : List Char) (h : c ∈ pyStripList cs) : c ∈ cs := by
  unfold pyStripList at h
  rw [List.mem_reverse] at h
  have h2 := (List.dropWhile_sublist (l := (cs.dropWhile Char.isWhitespace).reverse)
    (p := Char.isWhitespace)).subset h
  rw [List.mem_reverse] at h2
  exact (List.dropWhile_sublist (l := cs) (p := Char.isWhitespace)).subset h2

theorem processEnvLine_skip (env : Env) (raw : String) (h : ¬ '=' ∈ raw.data) :
    processEnvLine env raw = env := by
  have hline : ¬ '=' ∈ (pyStrip raw).data := fun hc => h (mem_pyStripList _ _ hc)
  unfold processEnvLine
  by_cases h0 : pyStrip raw = ""
  · simp [h0]
  · by_cases h1 : listStartsWith (pyStrip raw).data [ '#' ]
    · simp [h0, h1]
    · by_cases he : listStartsWith (pyLower (pyStrip raw)).data (("export ").data)
      · have h2 : ¬ '=' ∈ (pyLStrip (pyDrop 7 (pyStrip raw))).data := by
          intro hc
          apply hline
          have hc2 := (List.dropWhile_sublist (l := (pyStrip raw).data.drop 7)
            (p := Char.isWhitespace)).subset hc
          exact (List.drop_sublist 7 (pyStrip raw).data).subset hc2
        simp [h0, h1, he, h2]
      · simp [h0, h1, he, hline]

theorem dlookup_dictInsert_preserve {α : Type} (env : List (String × α)) (key : String)
    (val : α) (k : String) (v : α) (h : dlookup env k = some v)
    (hnone : dlookup env key = Option.none) :
    dlookup (dictInsert env key val) k = some v := by
  have hkne : k ≠ key := by
    intro he
    rw [he, hnone] at h
    cases h
  rw [dlookup_dictInsert_other env key k val hkne]
  exact h

theorem processEnvLine_preserves (env : Env) (raw : String) (k v : String)
    (h : dlookup env k = some v) : dlookup (processEnvLine env raw) k = some v := by
  simp only [processEnvLine]
  repeat' split
  all_goals
    first
      | exact h
      | (rename_i hcond; exact dlookup_dictInsert_preserve env _ _ k v h hcond.2)

theorem foldl_processEnvLine_preserves (lines : List String) :
    ∀ (env : Env) (k v : String), dlookup env k = some v →
      dlookup (lines.foldl processEnvLine env) k = some v := by
  induction lines with
  | nil => intro env k v h; exact h
  | cons line rest ih =>
    intro env k v h
    exact ih (processEnvLine env line) k v (processEnvLine_preserves env line k v h)

/-- C7: the `.env` loader never changes a variable that is already set —
it seeds unset variables only — and a line containing no equals sign
contributes nothing: removing it leaves the result unchanged (and the
loader is a total function, so no line can raise). -/
theorem load_env_no_overwrite_skip :
    (∀ (content : Option (List String)) (env : Env) (k v : String),
      dlookup env k = some v → dlookup (load_env_file content env) k = some v) ∧
    (∀ (pre post : List String) (bad : String) (env : Env),
      ¬ '=' ∈ bad.data →
      load_env_file (some (pre ++ bad :: post)) env
        = load_env_file (some (pre ++ post)) env) := by
  constructor
  · intro content env k v h
    cases content with
    | none => exact h
    | some lines => exact foldl_processEnvLine_preserves lines env k v h
  · intro pre post bad env hbad
    show (pre ++ bad :: post).foldl processEnvLine env = (pre ++ post).foldl processEnvLine env
    rw [List.foldl_append, List.foldl_append, List.foldl_cons,
      processEnvLine_skip (pre.foldl processEnvLine env) bad hbad]

/-- Concrete check of C7: a pre-set key survives a file that tries to
overwrite it, and a malformed line is skipped without effect. -/
theorem load_env_no_overwrite_skip_witness :
    dlookup (load_env_file (some (["PPLX_API_KEY=other", "NEW=1"]))
        [("PPLX_API_KEY", "secret")]) ("PPLX_API_KEY") = some ("secret") ∧
    load_env_file (some (["A=1"] ++ ("garbage") :: ["B=2"])) []
      = load_env_file (some (["A=1"] ++ ["B=2"])) [] := by
  have h := load_env_no_overwrite_skip
  exact ⟨h.1 (some (["PPLX_API_KEY=other", "NEW=1"])) [("PPLX_API_KEY", "secret")]
      ("PPLX_API_KEY") ("secret") (by decide),
    h.2 ["A=1"] ["B=2"] ("garbage") [] (by decide)⟩

/-- C9: the realtime source is in effect iff explicitly requested or no
source flag at all was given; with it in effect, an error result from the
realtime fetch triggers exactly one RSS-fallback call and a success
triggers none; in every run at most one fallback hop occurs. -/
theorem realtime_fallback_policy (args : TrendsArgs) (rt : Except String (List RTItem)) :
    ((applyDefaultSource args).realtime
      = (args.realtime || (!args.include_rss && !args.search_only))) ∧
    ((applyDefaultSource args).realtime = true →
      (∀ e, rt = Except.error e →
        (trendsMainActions args rt).count TrendAction.callRSSFallback = 1) ∧
      (∀ items, rt = Except.ok items →
        (trendsMainActions args rt).count TrendAction.callRSSFallback = 0)) ∧
    ((applyDefaultSource args).realtime = false →
      (trendsMainActions args rt).count TrendAction.callRSSFallback = 0) ∧
    ((trendsMainActions args rt).count TrendAction.callRSSFallback ≤ 1) := by
  refine ⟨?_, ?_, ?_, ?_⟩
  · obtain ⟨i, rl, so, m⟩ := args
    cases i <;> cases rl <;> cases so <;> rfl
  · intro hrt
    constructor
    · intro e he
      rw [he]
      obtain ⟨i, rl, so, m⟩ := args
      cases i <;> cases rl <;> cases so <;>
        first | rfl | simp [applyDefaultSource] at hrt
    · intro items he
      rw [he]
      obtain ⟨i, rl, so, m⟩ := args
      cases i <;> cases rl <;> cases so <;> rfl
  · intro hrt
    obtain ⟨i, rl, so, m⟩ := args
    cases i <;> cases rl <;> cases so <;> cases rt <;>
      first | rfl | simp [applyDefaultSource] at hrt
  · obtain ⟨i, rl, so, m⟩ := args
    cases i <;> cases rl <;> cases so <;> cases rt <;>
      first | exact Nat.le.refl | exact Nat.zero_le 1

/-- Concrete check of C9: with no source flags (default realtime), a failing
realtime fetch triggers the fallback once and a succeeding one never. -/
theorem realtime_fallback_policy_witness :
    (trendsMainActions ⟨false, false, false, 12⟩
      (Except.error ("network down"))).count TrendAction.callRSSFallback = 1 ∧
    (trendsMainActions ⟨false, false, false, 12⟩
      (Except.ok [])).count TrendAction.callRSSFallback = 0 := by
  have h1 := realtime_fallback_policy ⟨false, false, false, 12⟩ (Except.error ("network down"))
  have h2 := realtime_fallback_policy ⟨false, false, false, 12⟩ (Except.ok [])
  exact ⟨(h1.2.1 (by decide)).1 ("network down") rfl, (h2.2.1 (by decide)).2 [] rfl⟩
